import Mathlib

set_option maxHeartbeats 1000000

namespace GoSearch

/-- The character sequence of a string, as substring search traverses
it. Kept as its own definition so proofs can treat it atomically. -/
def strChars (s : String) : List Char := s.data

/-- Character-level prefix test, the primitive underlying Go's
`strings.Contains`. -/
def isPrefixL : List Char → List Char → Bool
  | [], _ => true
  | _ :: _, [] => false
  | a :: as, b :: bs => a == b && isPrefixL as bs

/-- Substring containment with the needle as first argument:
`containsSub n h` is Go's `strings.Contains(h, n)`. -/
def containsSub (needle : List Char) : List Char → Bool
  | [] => isPrefixL needle []
  | c :: rest => isPrefixL needle (c :: rest) || containsSub needle rest

/-- The four shared counters, globals `numFound`, `fileVisit`, `dirFound`,
`folderVisit` of gosearch.go (lines 20-23). -/
structure Counters where
  numFound : Nat
  fileVisit : Nat
  dirFound : Nat
  folderVisit : Nat
deriving Repr, DecidableEq

/-- The `walkresult` struct for one result document (gosearch.go 32-39).
`modTime` is kept abstract as an integer timestamp. -/
structure walkresult where
  path : String
  name : String
  found : Bool
  isDir : Bool
  size : Int
  modTime : Int
deriving Repr, DecidableEq

/-- One entry as `filepath.Walk` presents it to the callback: the path
argument, the `os.FileInfo` fields gosearch reads (`Name`, `IsDir`,
`Size`, `ModTime`), and the outcome `ioutil.ReadFile` would produce for
that path (`none` models a read error). -/
structure EntryInfo where
  path : String
  name : String
  isDir : Bool
  size : Int
  modTime : Int
  content : Option (List Char)
deriving Repr, DecidableEq

/-- The user-supplied configuration globals the engine reads:
`searchText`, `verbose` and `maxSize` (in MB) of gosearch.go. -/
structure Config where
  searchText : String
  verbose : Bool
  maxSize : Int
deriving Repr, DecidableEq

/-- Log records the engine emits besides match results: the
file-too-large warning of walkFiles and the cannot-read warning of
readFile. -/
inductive LogEvent where
  | skipTooLarge (path : String) (size : Int)
  | cannotRead (path : String)
deriving Repr, DecidableEq

/-- Accumulated observable effects of a run: final counters, the match
results sent by name-match tasks (`searchPath`), the match results sent
by content-match tasks (`searchFile`), the paths for which a `readFile`
task was dispatched, and the log events emitted. -/
structure RunOut where
  counters : Counters
  nameResults : List walkresult
  contentResults : List walkresult
  dispatched : List String
  logs : List LogEvent
deriving Repr, DecidableEq

/-- The empty accumulator: all counters zero, nothing sent or logged. -/
def initOut : RunOut := ⟨⟨0, 0, 0, 0⟩, [], [], [], []⟩

/-- `searchFile` (gosearch.go 152-169): substring-match the file content
against the keyword; on a match increment `numFound` under the lock and
send a result with `found = true`, otherwise send a result with
`found = false`. Exactly one result is sent either way. -/
def searchFile (cfg : Config) (path : String) (content : List Char)
    (f : EntryInfo) (acc : RunOut) : RunOut :=
  let search := containsSub (strChars cfg.searchText) content
  if search then
    { acc with
        counters := { acc.counters with numFound := acc.counters.numFound + 1 }
        contentResults :=
          acc.contentResults ++ [⟨path, f.name, true, f.isDir, f.size, f.modTime⟩] }
  else
    { acc with
        contentResults :=
          acc.contentResults ++ [⟨path, f.name, false, f.isDir, f.size, f.modTime⟩] }

/-- `readFile` (gosearch.go 133-149): on a read error, log a diagnostic
naming the path only when verbose mode is on, and do nothing else; on
success, hand the content to `searchFile`. -/
def readFile (cfg : Config) (path : String) (f : EntryInfo) (acc : RunOut) : RunOut :=
  match f.content with
  | none =>
      if cfg.verbose then { acc with logs := acc.logs ++ [.cannotRead path] } else acc
  | some content => searchFile cfg path content f acc

/-- `searchPath` (gosearch.go 172-194): substring-match the entry's base
name against the keyword; on a match increment `dirFound` for a
directory and `numFound` for a file, then send a result with
`found = true`; otherwise send a result with `found = false`. Exactly
one result is sent either way. -/
def searchPath (cfg : Config) (path : String) (f : EntryInfo) (acc : RunOut) : RunOut :=
  let search := containsSub (strChars cfg.searchText) (strChars f.name)
  if search then
    let c := acc.counters
    let c := if f.isDir then { c with dirFound := c.dirFound + 1 }
             else { c with numFound := c.numFound + 1 }
    { acc with
        counters := c
        nameResults :=
          acc.nameResults ++ [⟨path, f.name, true, f.isDir, f.size, f.modTime⟩] }
  else
    { acc with
        nameResults :=
          acc.nameResults ++ [⟨path, f.name, false, f.isDir, f.size, f.modTime⟩] }

/-- `fileCount` (gosearch.go 204-208): lock-protected increment of
`fileVisit`. -/
def fileCount (c : Counters) : Counters := { c with fileVisit := c.fileVisit + 1 }

/-- `folderCount` (gosearch.go 197-201): lock-protected increment of
`folderVisit`. -/
def folderCount (c : Counters) : Counters := { c with folderVisit := c.folderVisit + 1 }

/-- The body of the `filepath.Walk` callback inside `walkFiles`
(gosearch.go 95-119), with the effects of the tasks it dispatches for
this entry run to completion. For a file: `fileCount`, then either
dispatch `readFile` (when `f.Size() < maxSize*1024*1024`) or log the
too-large warning. Then, for every entry of either kind, `folderCount`
and a `searchPath` task — the `folderCount()` call in the source is not
guarded by `f.IsDir()`. -/
def walkStep (cfg : Config) (acc : RunOut) (f : EntryInfo) : RunOut :=
  let acc :=
    if !f.isDir then
      let acc := { acc with counters := fileCount acc.counters }
      if f.size < cfg.maxSize * 1024 * 1024 then
        readFile cfg f.path f { acc with dispatched := acc.dispatched ++ [f.path] }
      else
        { acc with logs := acc.logs ++ [.skipTooLarge f.path f.size] }
    else acc
  let acc := { acc with counters := folderCount acc.counters }
  searchPath cfg f.path f acc

/-- `walkFiles` (gosearch.go 89-130) with every dispatched task run to
completion: fold the callback over the list of entries `filepath.Walk`
enumerates under the root (the root itself first, then descendants).
The final counter totals are interleaving-independent because every
increment is protected by the single lock. -/
def walkFiles (cfg : Config) (entries : List EntryInfo) : RunOut :=
  entries.foldl (walkStep cfg) initOut

/-- The enumeration `filepath.Walk` produces for the scenario tree of
the spec: root directory `root` containing file `a.txt` (content
"hello world", 11 bytes) and subdirectory `needle` containing file
`b.txt` (content "nothing here", 12 bytes). `filepath.Walk` visits the
root first, then children in name order, recursively. -/
def scenarioEntries : List EntryInfo :=
  [⟨"root", "root", true, 0, 0, none⟩,
   ⟨"root/a.txt", "a.txt", false, 11, 0, some "hello world".toList⟩,
   ⟨"root/needle", "needle", true, 0, 0, none⟩,
   ⟨"root/needle/b.txt", "b.txt", false, 12, 0, some "nothing here".toList⟩]

/-- The configuration of the scenario: keyword "needle", not verbose,
default 100 MB size ceiling. -/
def scenarioCfg : Config := ⟨"needle", false, 100⟩

/-- Outcome of `os.Stat` on a path, distinguished the way the `exists`
probe distinguishes it: success, a not-exist error, or any other
error (for example a permission error). -/
inductive StatResult where
  | ok
  | errNotExist
  | errOther
deriving Repr, DecidableEq

/-- The `exists` probe (gosearch.go 79-86); named `existsPath` here only
because `exists` clashes with Lean syntax. It returns false only when
`os.Stat` fails with a not-exist error; a stat success and any other
stat error both report true. -/
def existsPath : StatResult → Bool
  | .ok => true
  | .errNotExist => false
  | .errOther => true

/-- Outcome of the argument-check phase of `main` (gosearch.go 238-260):
`exitHelp` is the -h branch (usage printed, `os.Exit(1)`); `exitError`
carries the error lines written to stderr by `errorOut` before usage is
printed and `os.Exit(1)` runs; `runSearch` means the engine starts. -/
inductive MainOutcome where
  | exitHelp
  | exitError (msgs : List String)
  | runSearch
deriving Repr, DecidableEq

/-- The argument checks of `main` (gosearch.go 238-260): the -h flag is
handled first; then a missing path, a path that fails the `exists`
probe, and a missing keyword each append one stderr message and clear
`ok`; if `ok` was cleared main prints usage and exits 1. -/
def mainCheck (help : Bool) (inputDir searchText : String) (st : StatResult) :
    MainOutcome :=
  if help then .exitHelp
  else
    let msgs :=
      if inputDir = "" then ["ERROR: Missing path to directory"]
      else if !(existsPath st) then ["ERROR: Path provided does not exist."]
      else []
    let msgs := msgs ++ (if searchText = "" then ["ERROR: Missing keyword to search"] else [])
    if msgs.isEmpty then .runSearch else .exitError msgs

/-- Process exit status decided by the check phase: `some 1` when main
exits during the checks (`os.Exit(1)` in both the help and the error
branch), `none` when the search is started. -/
def exitStatus : MainOutcome → Option Nat
  | .exitHelp => some 1
  | .exitError _ => some 1
  | .runSearch => none

/-- The whole program: run the argument checks of `main`; only when they
pass is the walk started. On exit during the checks the counters are
still their zero values, modelled by returning `initOut`. -/
def mainRun (help : Bool) (inputDir searchText : String) (st : StatResult)
    (verbose : Bool) (maxSize : Int) (entries : List EntryInfo) :
    Option Nat × RunOut :=
  match mainCheck help inputDir searchText st with
  | .runSearch => (none, walkFiles ⟨searchText, verbose, maxSize⟩ entries)
  | o => (exitStatus o, initOut)

/-- Walk enumeration of a root `r` holding one file `needle.txt` whose
name and content both contain the keyword "needle". -/
def doubleMatchEntries : List EntryInfo :=
  [⟨"r", "r", true, 0, 0, none⟩,
   ⟨"r/needle.txt", "needle.txt", false, 6, 0, some "needle".toList⟩]

/-- A 200 MB file entry, above the default 100 MB ceiling; its content
would match the keyword "needle" but is never read. -/
def bigEntry : EntryInfo :=
  ⟨"root/big.bin", "big.bin", false, 209715200, 0, some "needle haystack".toList⟩

/-- The scenario configuration with verbose reporting enabled. -/
def verboseCfg : Config := ⟨"needle", true, 100⟩

/-- A file entry whose content read fails (permissions, vanished file,
I/O error). -/
def unreadableEntry : EntryInfo :=
  ⟨"root/secret.txt", "secret.txt", false, 5, 0, none⟩

/-- Truth of "main stopped with at least one configuration error line
on stderr": the check phase ended in the error branch with a non-empty
message list. -/
def isExitError : MainOutcome → Bool
  | .exitError msgs => !msgs.isEmpty
  | _ => false

/-- Identifier of one of the four shared counters. -/
inductive CtrId where
  | numFound
  | fileVisit
  | dirFound
  | folderVisit
deriving Repr, DecidableEq

/-- A lock-protected counter increment, as performed inline in
searchFile/searchPath and by fileCount/folderCount. -/
def applyInc : CtrId → Counters → Counters
  | .numFound, c => { c with numFound := c.numFound + 1 }
  | .fileVisit, c => fileCount c
  | .dirFound, c => { c with dirFound := c.dirFound + 1 }
  | .folderVisit, c => folderCount c

/-- The code of one goroutine, as dispatched by the `go` statements of
gosearch.go: `readFile`, `searchFile`, `searchPath`, and the walker
goroutine launched by `walkFiles` itself. -/
inductive TaskCode where
  | readFileT (path : String) (f : EntryInfo)
  | searchFileT (path : String) (content : List Char) (f : EntryInfo)
  | searchPathT (path : String) (f : EntryInfo)
  | walkerT (entries : List EntryInfo)
deriving Repr, DecidableEq

/-- One primitive action of a goroutine, in program order: a
lock-protected counter increment, a channel send of one result, a
`wg.Add(1); go ...` dispatch, or a log write. The deferred `wg.Done()`
at the end of every goroutine is modelled by the `finish` step below
once the body is exhausted. -/
inductive Instr where
  | inc (c : CtrId)
  | send (r : walkresult)
  | spawn (t : TaskCode)
  | log (e : LogEvent)
deriving Repr, DecidableEq

/-- Per-entry actions of the `filepath.Walk` callback (gosearch.go
95-119): for a file, `fileCount()` then either `wg.Add(1); go readFile`
(size strictly under the ceiling) or the too-large log; then, for every
entry, `folderCount()` and `wg.Add(1); go searchPath`. -/
def entryInstrs (cfg : Config) (f : EntryInfo) : List Instr :=
  (if !f.isDir then
     .inc .fileVisit ::
       (if f.size < cfg.maxSize * 1024 * 1024 then
          [.spawn (.readFileT f.path f)]
        else
          [.log (.skipTooLarge f.path f.size)])
   else []) ++
  [.inc .folderVisit, .spawn (.searchPathT f.path f)]

/-- The program-order body of each goroutine, translated from
gosearch.go: `readFile` (133-149) either logs on a failed read (verbose
only) or spawns `searchFile`; `searchFile` (152-169) and `searchPath`
(172-194) increment the matched counter under the lock and then send
their single result; the walker (93-128) runs the callback for every
enumerated entry. -/
def taskBody (cfg : Config) : TaskCode → List Instr
  | .readFileT path f =>
      match f.content with
      | none => if cfg.verbose then [.log (.cannotRead path)] else []
      | some content => [.spawn (.searchFileT path content f)]
  | .searchFileT path content f =>
      if containsSub (strChars cfg.searchText) content then
        [.inc .numFound, .send ⟨path, f.name, true, f.isDir, f.size, f.modTime⟩]
      else
        [.send ⟨path, f.name, false, f.isDir, f.size, f.modTime⟩]
  | .searchPathT path f =>
      if containsSub (strChars cfg.searchText) (strChars f.name) then
        (if f.isDir then [.inc .dirFound] else [.inc .numFound]) ++
          [.send ⟨path, f.name, true, f.isDir, f.size, f.modTime⟩]
      else
        [.send ⟨path, f.name, false, f.isDir, f.size, f.modTime⟩]
  | .walkerT entries => (entries.map (entryInstrs cfg)).flatten

/-- Global state of the concurrent run: the wait-group counter, the
remaining bodies of the running wg-tracked goroutines, whether
`close(filesFound)` has run, whether the one-shot done signal was
asserted, whether any send happened after the close (in Go, a panic),
the shared counters, and the results the consumer has received so far
(the channel is unbuffered, so a completed send is a receipt). -/
structure SysState where
  wg : Nat
  tasks : List (List Instr)
  closed : Bool
  doneSig : Bool
  badSend : Bool
  counters : Counters
  received : List walkresult
deriving Repr, DecidableEq

/-- The state right after `walkFiles` runs `wg.Add(1)` and launches the
walker goroutine (gosearch.go 92-93): one tracked task, nothing
received, counters zero. -/
def initSys (cfg : Config) (entries : List EntryInfo) : SysState :=
  { wg := 1, tasks := [taskBody cfg (.walkerT entries)], closed := false,
    doneSig := false, badSend := false, counters := ⟨0, 0, 0, 0⟩, received := [] }

/-- Effect of the instruction `i` executed by the task whose remaining
body is `i :: is`, the other tasks being `l` (before it) and `r`
(after it). A spawn performs `wg.Add(1)` before the new goroutine
exists, exactly as in the source, where `wg.Add(1)` precedes every
`go`. -/
def execInstr (cfg : Config) (s : SysState) (l r : List (List Instr))
    (i : Instr) (is : List Instr) : SysState :=
  match i with
  | .inc c =>
      { s with tasks := l ++ is :: r, counters := applyInc c s.counters }
  | .send res =>
      { s with tasks := l ++ is :: r,
               received := s.received ++ [res],
               badSend := s.badSend || s.closed }
  | .spawn t =>
      { s with tasks := (l ++ is :: r) ++ [taskBody cfg t], wg := s.wg + 1 }
  | .log _ => { s with tasks := l ++ is :: r }

/-- One interleaving step: a running task executes its next
instruction; a task with an exhausted body finishes, running its
deferred `wg.Done()`; or the `cleanup` goroutine (gosearch.go 211-218),
unblocked by `wg.Wait()` returning at counter zero, closes the result
channel and asserts the one-shot done signal. -/
inductive Step (cfg : Config) : SysState → SysState → Prop where
  | exec (s : SysState) (l r : List (List Instr)) (i : Instr) (is : List Instr) :
      s.tasks = l ++ (i :: is) :: r →
      Step cfg s (execInstr cfg s l r i is)
  | finish (s : SysState) (l r : List (List Instr)) :
      s.tasks = l ++ [] :: r →
      Step cfg s { s with tasks := l ++ r, wg := s.wg - 1 }
  | cleanup (s : SysState) :
      s.wg = 0 → s.closed = false →
      Step cfg s { s with closed := true, doneSig := true }

/-- All states reachable from the start of `walkFiles`. -/
def Reach (cfg : Config) (entries : List EntryInfo) (s : SysState) : Prop :=
  Relation.ReflTransGen (Step cfg) (initSys cfg entries) s

/-- A matched-file result: `found` and not a directory. -/
def isMatchedFile (r : walkresult) : Bool := r.found && !r.isDir

/-- A matched-directory result: `found` and a directory. -/
def isMatchedDir (r : walkresult) : Bool := r.found && r.isDir

/-- Number of matched-file results in a result list. -/
def mfCount (rs : List walkresult) : Nat := rs.countP isMatchedFile

/-- Number of matched-directory results in a result list. -/
def mdCount (rs : List walkresult) : Nat := rs.countP isMatchedDir

/-- Is this instruction an increment of `numFound`. -/
def isNumFoundInc : Instr → Bool
  | .inc .numFound => true
  | _ => false

/-- Is this instruction an increment of `dirFound`. -/
def isDirFoundInc : Instr → Bool
  | .inc .dirFound => true
  | _ => false

/-- Is this instruction a send of a matched-file result. -/
def isMFSend : Instr → Bool
  | .send r => isMatchedFile r
  | _ => false

/-- Is this instruction a send of a matched-directory result. -/
def isMDSend : Instr → Bool
  | .send r => isMatchedDir r
  | _ => false

/-- Matched-file sends still pending in a body, beyond the `numFound`
increments still pending there: in every body of this program the
increment precedes the send, so this is positive exactly between the
increment and the send. -/
def pendF (t : List Instr) : Nat := t.countP isMFSend - t.countP isNumFoundInc

/-- Matched-directory sends still pending in a body, beyond the
`dirFound` increments still pending there. -/
def pendD (t : List Instr) : Nat := t.countP isMDSend - t.countP isDirFoundInc

/-- In every goroutine body of this program a send, if any, is the last
instruction. -/
def sendsLast : List Instr → Bool
  | [] => true
  | .send _ :: rest => rest.isEmpty
  | _ :: rest => sendsLast rest

/-- Codes whose bodies respect the counter discipline: `readFile` and
`searchFile` goroutines are only ever dispatched for file entries. -/
def goodCode : TaskCode → Prop
  | .readFileT _ f => f.isDir = false
  | .searchFileT _ _ f => f.isDir = false
  | .searchPathT _ _ => True
  | .walkerT _ => True

/-- Every code spawned from this body is good. -/
def spawnsGood (t : List Instr) : Prop :=
  ∀ tc : TaskCode, Instr.spawn tc ∈ t → goodCode tc

/-- Runtime discipline of a task body: its send, if any, comes last,
and everything it spawns is good. -/
def goodTask (t : List Instr) : Prop :=
  sendsLast t = true ∧ spawnsGood t

/-- Is this instruction a channel send. -/
def isSend : Instr → Bool
  | .send _ => true
  | _ => false

/-- The inductive invariant of the run: the wait-group counts exactly
the running tasks; once the channel is closed (and once the done signal
fired) no task remains; no send ever happened on the closed channel;
every running body obeys the program discipline; and each matched
counter dominates the matched results received plus the matched sends
already paid for by an executed increment. -/
def InvSys (s : SysState) : Prop :=
  s.wg = s.tasks.length ∧
  (s.closed = true → s.tasks = []) ∧
  (s.doneSig = true → s.closed = true) ∧
  s.badSend = false ∧
  (∀ t ∈ s.tasks, goodTask t) ∧
  mfCount s.received + (s.tasks.map pendF).sum ≤ s.counters.numFound ∧
  mdCount s.received + (s.tasks.map pendD).sum ≤ s.counters.dirFound

/-- Upper bound on the `dirFound` increments a goroutine of this code
will ever perform: only a `searchPath` goroutine for a directory entry
can increment `dirFound`, at most once. -/
def dUpper : TaskCode → Nat
  | .searchPathT _ f => if f.isDir then 1 else 0
  | _ => 0

/-- Upper bound on the `numFound` increments a goroutine of this code
will ever perform (directly or through the goroutines it spawns): one
for a `searchPath` goroutine on a file entry, one for a `readFile` or
`searchFile` goroutine, none for the walker itself or a `searchPath`
goroutine on a directory. -/
def nUpper : TaskCode → Nat
  | .searchPathT _ f => if f.isDir then 0 else 1
  | .readFileT _ _ => 1
  | .searchFileT _ _ _ => 1
  | .walkerT _ => 0

/-- Potential `dirFound` increments in a body that are already covered
by an executed `folderCount()`: spawns encountered before the body's
next own `inc folderVisit` were dispatched for an entry whose folder
counter was already bumped, so their capacity counts; from the next
`inc folderVisit` on, every later spawn is paid for by that very
increment and counts for nothing. -/
def uncoveredD : List Instr → Nat
  | [] => 0
  | .inc .folderVisit :: _ => 0
  | .spawn tc :: rest => dUpper tc + uncoveredD rest
  | _ :: rest => uncoveredD rest

/-- Potential `numFound` increments in a body already covered by an
executed `fileCount()`: spawn capacity before the body's next own
`inc fileVisit`. -/
def uncoveredN : List Instr → Nat
  | [] => 0
  | .inc .fileVisit :: _ => 0
  | .spawn tc :: rest => nUpper tc + uncoveredN rest
  | _ :: rest => uncoveredN rest

/-- Total `dirFound` debt of a running body: its own pending
`inc dirFound` instructions plus the covered capacity of what it still
has to spawn. -/
def muD (t : List Instr) : Nat := t.countP isDirFoundInc + uncoveredD t

/-- Total `numFound` debt of a running body: its own pending
`inc numFound` instructions plus the covered capacity of what it still
has to spawn. -/
def muN (t : List Instr) : Nat := t.countP isNumFoundInc + uncoveredN t

/-- Discipline check for the folder counters, true of every body and
suffix arising at runtime: whenever the body is about to run
`inc folderVisit`, the covered capacity of what follows is at most one
(the lone `searchPath` spawn of the entry being processed). -/
def okDb : List Instr → Bool
  | [] => true
  | .inc .folderVisit :: rest => decide (uncoveredD rest ≤ 1) && okDb rest
  | _ :: rest => okDb rest

/-- Discipline check for the file counters: whenever the body is about
to run `inc fileVisit`, the covered capacity of what follows is at most
two (the `readFile` spawn and the `searchPath` spawn of the file being
processed). -/
def okNb : List Instr → Bool
  | [] => true
  | .inc .fileVisit :: rest => decide (uncoveredN rest ≤ 2) && okNb rest
  | _ :: rest => okNb rest

/-- The counter invariant holding at every point of every run: each
matched counter plus the total debt of the running goroutines stays
below its visit counter (twice the visit counter for files), and every
running body passes the discipline checks. -/
def InvCtr (s : SysState) : Prop :=
  (∀ t ∈ s.tasks, okDb t = true ∧ okNb t = true) ∧
  s.counters.dirFound + (s.tasks.map muD).sum ≤ s.counters.folderVisit ∧
  s.counters.numFound + (s.tasks.map muN).sum ≤ 2 * s.counters.fileVisit

/-- The counters after `searchFile`: `numFound` grows by one exactly on
a content match; nothing else changes. -/
theorem searchFile_counters (cfg : Config) (path : String) (content : List Char)
    (f : EntryInfo) (acc : RunOut) :
    (searchFile cfg path content f acc).counters =
      (if containsSub (strChars cfg.searchText) content then
        { acc.counters with numFound := acc.counters.numFound + 1 }
      else acc.counters) := by
  simp only [searchFile]
  split <;> rfl

/-- The counters after `searchPath`: on a name match `dirFound` grows by
one for a directory and `numFound` by one for a file; otherwise nothing
changes. -/
theorem searchPath_counters (cfg : Config) (path : String)
    (f : EntryInfo) (acc : RunOut) :
    (searchPath cfg path f acc).counters =
      (if containsSub (strChars cfg.searchText) (strChars f.name) then
        (if f.isDir then { acc.counters with dirFound := acc.counters.dirFound + 1 }
         else { acc.counters with numFound := acc.counters.numFound + 1 })
      else acc.counters) := by
  simp only [searchPath]
  split
  · split <;> rfl
  · rfl

/-- `readFile` changes no counter other than possibly adding one to
`numFound` (through `searchFile`, when the read succeeds and the
content matches). -/
theorem readFile_counters_le (cfg : Config) (path : String)
    (f : EntryInfo) (acc : RunOut) :
    (readFile cfg path f acc).counters.numFound ≤ acc.counters.numFound + 1 ∧
    (readFile cfg path f acc).counters.fileVisit = acc.counters.fileVisit ∧
    (readFile cfg path f acc).counters.dirFound = acc.counters.dirFound ∧
    (readFile cfg path f acc).counters.folderVisit = acc.counters.folderVisit := by
  simp only [readFile]
  split
  · split <;> simp
  · rw [searchFile_counters]
    split <;> simp

/-- Every visited entry adds exactly one to `folderVisit`: the
`folderCount()` call in the walk callback is unconditional. -/
theorem walkStep_folderVisit (cfg : Config) (acc : RunOut) (f : EntryInfo) :
    (walkStep cfg acc f).counters.folderVisit = acc.counters.folderVisit + 1 := by
  simp only [walkStep]
  split
  · split
    · rw [searchPath_counters]
      split
      · split <;> simp [folderCount, (readFile_counters_le cfg f.path f _).2.2.2, fileCount]
      · simp [folderCount, (readFile_counters_le cfg f.path f _).2.2.2, fileCount]
    · rw [searchPath_counters]
      split
      · split <;> simp [folderCount, fileCount]
      · simp [folderCount, fileCount]
  · rw [searchPath_counters]
    split
    · split <;> simp [folderCount, fileCount]
    · simp [folderCount, fileCount]

/-- A file entry adds exactly one to `fileVisit`; a directory entry adds
nothing. -/
theorem walkStep_fileVisit (cfg : Config) (acc : RunOut) (f : EntryInfo) :
    (walkStep cfg acc f).counters.fileVisit =
      acc.counters.fileVisit + (if f.isDir then 0 else 1) := by
  simp only [walkStep]
  split
  · rename_i hd
    split
    · rw [searchPath_counters]
      split
      · split <;> simp_all [folderCount, (readFile_counters_le cfg f.path f _).2.1, fileCount]
      · simp_all [folderCount, (readFile_counters_le cfg f.path f _).2.1, fileCount]
    · rw [searchPath_counters]
      split
      · split <;> simp_all [folderCount, fileCount]
      · simp_all [folderCount, fileCount]
  · rename_i hd
    rw [searchPath_counters]
    split
    · split <;> simp_all [folderCount, fileCount]
    · simp_all [folderCount, fileCount]

/-- An entry adds at most one to `dirFound` (exactly the directory
name-match case). -/
theorem walkStep_dirFound_le (cfg : Config) (acc : RunOut) (f : EntryInfo) :
    (walkStep cfg acc f).counters.dirFound ≤ acc.counters.dirFound + 1 := by
  simp only [walkStep]
  split
  · split
    · rw [searchPath_counters]
      split
      · split <;> simp [folderCount, (readFile_counters_le cfg f.path f _).2.2.1, fileCount]
      · simp [folderCount, (readFile_counters_le cfg f.path f _).2.2.1, fileCount]
    · rw [searchPath_counters]
      split
      · split <;> simp [folderCount, fileCount]
      · simp [folderCount, fileCount]
  · rw [searchPath_counters]
    split
    · split <;> simp [folderCount, fileCount]
    · simp [folderCount, fileCount]

/-- A directory entry adds nothing to `numFound`; a file entry adds at
most two (one possible content match, one possible name match). -/
theorem walkStep_numFound_le (cfg : Config) (acc : RunOut) (f : EntryInfo) :
    (walkStep cfg acc f).counters.numFound ≤
      acc.counters.numFound + (if f.isDir then 0 else 2) := by
  simp only [walkStep]
  split
  · rename_i hd
    split
    · rw [searchPath_counters]
      have hr := (readFile_counters_le cfg f.path f
        { acc with counters := fileCount acc.counters,
                   dispatched := acc.dispatched ++ [f.path] }).1
      split
      · split <;> simp_all [folderCount, fileCount]
      · simp_all [folderCount, fileCount]
        omega
    · rw [searchPath_counters]
      split
      · split <;> simp_all [folderCount, fileCount]
      · simp_all [folderCount, fileCount]
  · rename_i hd
    rw [searchPath_counters]
    split
    · split <;> simp_all [folderCount, fileCount]
    · simp_all [folderCount, fileCount]

/-- `searchFile` sends exactly one content result carrying the match
bit, and touches no other output stream. -/
theorem searchFile_effects (cfg : Config) (path : String) (content : List Char)
    (f : EntryInfo) (acc : RunOut) :
    (searchFile cfg path content f acc).nameResults = acc.nameResults ∧
    (searchFile cfg path content f acc).dispatched = acc.dispatched ∧
    (searchFile cfg path content f acc).logs = acc.logs ∧
    (searchFile cfg path content f acc).contentResults =
      acc.contentResults ++
        [⟨path, f.name, containsSub (strChars cfg.searchText) content,
          f.isDir, f.size, f.modTime⟩] := by
  cases hm : containsSub (strChars cfg.searchText) content <;> simp [searchFile, hm]

/-- `searchPath` leaves the dispatch list untouched. -/
theorem searchPath_dispatched (cfg : Config) (path : String)
    (f : EntryInfo) (acc : RunOut) :
    (searchPath cfg path f acc).dispatched = acc.dispatched := by
  cases hm : containsSub (strChars cfg.searchText) (strChars f.name) <;> simp [searchPath, hm]

/-- `searchPath` emits no content result. -/
theorem searchPath_contentResults (cfg : Config) (path : String)
    (f : EntryInfo) (acc : RunOut) :
    (searchPath cfg path f acc).contentResults = acc.contentResults := by
  cases hm : containsSub (strChars cfg.searchText) (strChars f.name) <;> simp [searchPath, hm]

/-- `searchPath` logs nothing. -/
theorem searchPath_logs (cfg : Config) (path : String)
    (f : EntryInfo) (acc : RunOut) :
    (searchPath cfg path f acc).logs = acc.logs := by
  cases hm : containsSub (strChars cfg.searchText) (strChars f.name) <;> simp [searchPath, hm]

/-- `searchPath` sends exactly one name result. -/
theorem searchPath_nameResults_length (cfg : Config) (path : String)
    (f : EntryInfo) (acc : RunOut) :
    (searchPath cfg path f acc).nameResults.length = acc.nameResults.length + 1 := by
  cases hm : containsSub (strChars cfg.searchText) (strChars f.name) <;> simp [searchPath, hm]

/-- `searchPath` does not change `fileVisit`. -/
theorem searchPath_fileVisit (cfg : Config) (path : String)
    (f : EntryInfo) (acc : RunOut) :
    (searchPath cfg path f acc).counters.fileVisit = acc.counters.fileVisit := by
  rw [searchPath_counters]
  split
  · split <;> rfl
  · rfl

/-- `readFile` leaves the dispatch list untouched. -/
theorem readFile_dispatched (cfg : Config) (path : String)
    (f : EntryInfo) (acc : RunOut) :
    (readFile cfg path f acc).dispatched = acc.dispatched := by
  simp only [readFile]
  split
  · split <;> rfl
  · exact (searchFile_effects cfg path _ f acc).2.1

/-- `readFile` emits no name result. -/
theorem readFile_nameResults (cfg : Config) (path : String)
    (f : EntryInfo) (acc : RunOut) :
    (readFile cfg path f acc).nameResults = acc.nameResults := by
  simp only [readFile]
  split
  · split <;> rfl
  · exact (searchFile_effects cfg path _ f acc).1

/-- Folding the walk callback over the enumeration adds one to
`folderVisit` per entry, of either kind. -/
theorem foldl_walkStep_folderVisit (cfg : Config) :
    ∀ (es : List EntryInfo) (acc : RunOut),
      (es.foldl (walkStep cfg) acc).counters.folderVisit =
        acc.counters.folderVisit + es.length
  | [], _ => by simp
  | e :: es, acc => by
      simp only [List.foldl_cons, List.length_cons]
      rw [foldl_walkStep_folderVisit cfg es, walkStep_folderVisit]
      omega

/-- Folding the walk callback over the enumeration adds one to
`fileVisit` per file entry. -/
theorem foldl_walkStep_fileVisit (cfg : Config) :
    ∀ (es : List EntryInfo) (acc : RunOut),
      (es.foldl (walkStep cfg) acc).counters.fileVisit =
        acc.counters.fileVisit + es.countP (fun e => !e.isDir)
  | [], _ => by simp
  | e :: es, acc => by
      simp only [List.foldl_cons, List.countP_cons]
      rw [foldl_walkStep_fileVisit cfg es, walkStep_fileVisit]
      cases hd : e.isDir
      · simp [hd]
        omega
      · simp [hd]

/-- The matched counters stay below the visit counters in the amended
sense: `dirFound` below `folderVisit`, `numFound` below twice
`fileVisit`. -/
theorem foldl_walkStep_matched_le (cfg : Config) :
    ∀ (es : List EntryInfo) (acc : RunOut),
      acc.counters.dirFound ≤ acc.counters.folderVisit →
      acc.counters.numFound ≤ 2 * acc.counters.fileVisit →
      (es.foldl (walkStep cfg) acc).counters.dirFound ≤
          (es.foldl (walkStep cfg) acc).counters.folderVisit ∧
        (es.foldl (walkStep cfg) acc).counters.numFound ≤
          2 * (es.foldl (walkStep cfg) acc).counters.fileVisit
  | [], _ => fun h1 h2 => ⟨h1, h2⟩
  | e :: es, acc => by
      intro h1 h2
      simp only [List.foldl_cons]
      apply foldl_walkStep_matched_le cfg es
      · have ha := walkStep_dirFound_le cfg acc e
        have hb := walkStep_folderVisit cfg acc e
        omega
      · have ha := walkStep_numFound_le cfg acc e
        have hb := walkStep_fileVisit cfg acc e
        cases hd : e.isDir
        · rw [hd] at ha hb
          simp at ha hb
          omega
        · rw [hd] at ha hb
          simp at ha hb
          omega

/-- C1 (counterexample): the claim expects one visited-counter increment
per entry matching its kind, hence filesVisited + foldersVisited equal
to the number of enumerated entries, and foldersVisited = 1 on the
scenario tree. On the code, the scenario run yields fileVisit = 2 but
folderVisit = 4 over 4 enumerated entries: the folder counter was
incremented for the files too, so the sum is 6, not 4, and
foldersVisited is 4, not 1. -/
theorem C1_scenario_counterexample :
    (walkFiles scenarioCfg scenarioEntries).counters.fileVisit = 2 ∧
    (walkFiles scenarioCfg scenarioEntries).counters.folderVisit = 4 ∧
    scenarioEntries.length = 4 ∧
    ¬((walkFiles scenarioCfg scenarioEntries).counters.fileVisit +
        (walkFiles scenarioCfg scenarioEntries).counters.folderVisit =
          scenarioEntries.length ∧
      (walkFiles scenarioCfg scenarioEntries).counters.folderVisit = 1) := by
  decide

/-- C1 (amended): every enumerated entry increments `folderVisit` — the
`folderCount()` call is unconditional — and every file entry
additionally increments `fileVisit`. Hence `folderVisit` equals the
total number of enumerated entries (the root included), `fileVisit`
equals the number of file entries, their sum exceeds the entry count by
the file count, and the scenario ends with filesVisited = 2 and
foldersVisited = 4. -/
theorem C1_visited_counters (cfg : Config) (entries : List EntryInfo) :
    (walkFiles cfg entries).counters.folderVisit = entries.length ∧
    (walkFiles cfg entries).counters.fileVisit =
      entries.countP (fun e => !e.isDir) ∧
    (walkFiles cfg entries).counters.fileVisit +
        (walkFiles cfg entries).counters.folderVisit =
      entries.length + entries.countP (fun e => !e.isDir) ∧
    (walkFiles scenarioCfg scenarioEntries).counters.fileVisit = 2 ∧
    (walkFiles scenarioCfg scenarioEntries).counters.folderVisit = 4 := by
  have h1 := foldl_walkStep_folderVisit cfg entries initOut
  have h2 := foldl_walkStep_fileVisit cfg entries initOut
  simp [initOut] at h1 h2
  refine ⟨?_, ?_, ?_, by decide, by decide⟩ <;> simp [walkFiles, h1, h2, initOut] <;> omega

/-- C2 (counterexample): a single file whose name and content both
contain the keyword is visited once but increments `numFound` twice
(once in searchFile, once in searchPath), so the matched-files counter
exceeds the files-visited counter. -/
theorem C2_double_count_counterexample :
    (walkFiles scenarioCfg doubleMatchEntries).counters.numFound = 2 ∧
    (walkFiles scenarioCfg doubleMatchEntries).counters.fileVisit = 1 ∧
    ¬((walkFiles scenarioCfg doubleMatchEntries).counters.numFound ≤
        (walkFiles scenarioCfg doubleMatchEntries).counters.fileVisit) := by
  decide

/-- C3 (counterexample): the claim says the size-skip notice is logged
only when verbose mode is enabled; the code logs it unconditionally.
With verbose off, walking a single over-ceiling file still logs the
skip notice. -/
theorem C3_skip_log_counterexample :
    scenarioCfg.verbose = false ∧
    (walkFiles scenarioCfg [bigEntry]).logs =
      [.skipTooLarge "root/big.bin" 209715200] := by
  decide

/-- C3 (amended): for a file entry, a content read-and-match task is
dispatched exactly when the file size is strictly below
`maxSize*1024*1024`; a file at or above the ceiling emits no content
result, is still name-matched (one name result) and still counted as
visited, and the size-skip notice is logged unconditionally, whatever
the verbose flag. -/
theorem C3_size_ceiling (cfg : Config) (acc : RunOut) (f : EntryInfo)
    (hf : f.isDir = false) :
    (f.size < cfg.maxSize * 1024 * 1024 →
        (walkStep cfg acc f).dispatched = acc.dispatched ++ [f.path]) ∧
    (¬f.size < cfg.maxSize * 1024 * 1024 →
        (walkStep cfg acc f).dispatched = acc.dispatched ∧
        (walkStep cfg acc f).contentResults = acc.contentResults ∧
        (walkStep cfg acc f).nameResults.length = acc.nameResults.length + 1 ∧
        (walkStep cfg acc f).counters.fileVisit = acc.counters.fileVisit + 1 ∧
        (walkStep cfg acc f).logs = acc.logs ++ [.skipTooLarge f.path f.size]) := by
  constructor
  · intro h
    simp [walkStep, hf, h, searchPath_dispatched, readFile_dispatched]
  · intro h
    simp [walkStep, hf, h, searchPath_dispatched, searchPath_contentResults,
      searchPath_nameResults_length, searchPath_logs, searchPath_fileVisit,
      folderCount, fileCount]

/-- Witness for C3: the 200 MB file under the default 100 MB ceiling
configuration takes the at-or-above branch. -/
theorem C3_size_ceiling_witness :
    bigEntry.isDir = false ∧
    ((walkStep scenarioCfg initOut bigEntry).dispatched = initOut.dispatched ∧
     (walkStep scenarioCfg initOut bigEntry).contentResults = initOut.contentResults ∧
     (walkStep scenarioCfg initOut bigEntry).nameResults.length =
       initOut.nameResults.length + 1 ∧
     (walkStep scenarioCfg initOut bigEntry).counters.fileVisit =
       initOut.counters.fileVisit + 1 ∧
     (walkStep scenarioCfg initOut bigEntry).logs =
       initOut.logs ++ [.skipTooLarge bigEntry.path bigEntry.size]) :=
  ⟨rfl, (C3_size_ceiling scenarioCfg initOut bigEntry rfl).2 (by decide)⟩

/-- C4 (confirmed): a failed content read is soft — counters unchanged,
no content result, no name result and no dispatch from this task, the
search continues, and a diagnostic naming the path is logged exactly
when verbose mode is enabled. -/
theorem C4_soft_read_failure (cfg : Config) (path : String) (f : EntryInfo)
    (acc : RunOut) (hf : f.content = none) :
    (readFile cfg path f acc).counters = acc.counters ∧
    (readFile cfg path f acc).contentResults = acc.contentResults ∧
    (readFile cfg path f acc).nameResults = acc.nameResults ∧
    (readFile cfg path f acc).dispatched = acc.dispatched ∧
    (cfg.verbose = true →
      (readFile cfg path f acc).logs = acc.logs ++ [.cannotRead path]) ∧
    (cfg.verbose = false → (readFile cfg path f acc).logs = acc.logs) := by
  cases hv : cfg.verbose <;> simp [readFile, hf, hv]

/-- Witness for C4: the unreadable file under the verbose
configuration. -/
theorem C4_soft_read_failure_witness :
    unreadableEntry.content = none ∧
    ((readFile verboseCfg "root/secret.txt" unreadableEntry initOut).counters =
       initOut.counters ∧
     (readFile verboseCfg "root/secret.txt" unreadableEntry initOut).contentResults =
       initOut.contentResults ∧
     (readFile verboseCfg "root/secret.txt" unreadableEntry initOut).nameResults =
       initOut.nameResults ∧
     (readFile verboseCfg "root/secret.txt" unreadableEntry initOut).dispatched =
       initOut.dispatched ∧
     (verboseCfg.verbose = true →
       (readFile verboseCfg "root/secret.txt" unreadableEntry initOut).logs =
         initOut.logs ++ [.cannotRead "root/secret.txt"]) ∧
     (verboseCfg.verbose = false →
       (readFile verboseCfg "root/secret.txt" unreadableEntry initOut).logs =
         initOut.logs)) :=
  ⟨rfl, C4_soft_read_failure verboseCfg "root/secret.txt" unreadableEntry initOut rfl⟩

/-- C5 (confirmed): for every visited entry `searchPath` sends exactly
one name result whose match bit is the substring test of the keyword
against the base name; on a true match it increments `numFound` for a
file and `dirFound` for a directory, and it never touches the visit
counters. -/
theorem C5_name_matcher (cfg : Config) (path : String) (f : EntryInfo)
    (acc : RunOut) :
    (searchPath cfg path f acc).nameResults =
      acc.nameResults ++
        [⟨path, f.name, containsSub (strChars cfg.searchText) (strChars f.name),
          f.isDir, f.size, f.modTime⟩] ∧
    (searchPath cfg path f acc).counters.numFound =
      acc.counters.numFound +
        (if containsSub (strChars cfg.searchText) (strChars f.name) && !f.isDir
         then 1 else 0) ∧
    (searchPath cfg path f acc).counters.dirFound =
      acc.counters.dirFound +
        (if containsSub (strChars cfg.searchText) (strChars f.name) && f.isDir
         then 1 else 0) ∧
    (searchPath cfg path f acc).counters.fileVisit = acc.counters.fileVisit ∧
    (searchPath cfg path f acc).counters.folderVisit = acc.counters.folderVisit := by
  cases hm : containsSub (strChars cfg.searchText) (strChars f.name) <;>
    cases hd : f.isDir <;> simp [searchPath, hm, hd]

/-- C7 (confirmed): a missing root path, a missing keyword, or a root
path that fails the existence probe makes main print at least one error
line to stderr, print usage and exit with status 1 before any search
work, leaving all four counters at zero. -/
theorem C7_config_errors (p k : String) (st : StatResult) (v : Bool) (m : Int)
    (entries : List EntryInfo)
    (h : p = "" ∨ k = "" ∨ existsPath st = false) :
    isExitError (mainCheck false p k st) = true ∧
    mainRun false p k st v m entries = (some 1, initOut) ∧
    (mainRun false p k st v m entries).2.counters = ⟨0, 0, 0, 0⟩ := by
  by_cases hp : p = "" <;> by_cases hk : k = "" <;>
    by_cases he : existsPath st = true <;>
      simp_all [mainCheck, isExitError, mainRun, exitStatus, initOut]

/-- Witness for C7: missing root path with a keyword supplied. -/
theorem C7_config_errors_witness :
    (("" : String) = "" ∨ ("kw" : String) = "" ∨ existsPath .ok = false) ∧
    (isExitError (mainCheck false "" "kw" .ok) = true ∧
     mainRun false "" "kw" .ok false 100 scenarioEntries = (some 1, initOut) ∧
     (mainRun false "" "kw" .ok false 100 scenarioEntries).2.counters = ⟨0, 0, 0, 0⟩) :=
  ⟨Or.inl rfl, C7_config_errors "" "kw" .ok false 100 scenarioEntries (Or.inl rfl)⟩

/-- C8 (confirmed): with the -h flag set, main prints the usage text and
exits with status 1 before anything else, whatever the other arguments
are — the same exit status as every configuration-error branch. -/
theorem C8_help_exits_one (p k : String) (st : StatResult) (v : Bool) (m : Int)
    (entries : List EntryInfo) :
    mainCheck true p k st = .exitHelp ∧
    mainRun true p k st v m entries = (some 1, initOut) ∧
    exitStatus .exitHelp = some 1 ∧
    (∀ msgs, exitStatus (.exitError msgs) = exitStatus .exitHelp) := by
  refine ⟨by simp [mainCheck], by simp [mainRun, mainCheck, exitStatus], rfl, fun _ => rfl⟩

/-- C9 (confirmed): the existence probe returns true when os.Stat fails
with an error other than not-exist, so such a root passes validation
and the search is started. -/
theorem C9_stat_error_passes (p k : String) (v : Bool) (m : Int)
    (entries : List EntryInfo) (hp : p ≠ "") (hk : k ≠ "") :
    existsPath .errOther = true ∧
    mainCheck false p k .errOther = .runSearch ∧
    (mainRun false p k .errOther v m entries).1 = none := by
  refine ⟨rfl, ?_, ?_⟩
  · simp [mainCheck, hp, hk, existsPath]
  · simp [mainRun, mainCheck, hp, hk, existsPath]

/-- Witness for C9: a permission-style stat error on a named root with
a keyword supplied. -/
theorem C9_stat_error_passes_witness :
    ("root" : String) ≠ "" ∧ ("kw" : String) ≠ "" ∧
    (existsPath .errOther = true ∧
     mainCheck false "root" "kw" .errOther = .runSearch ∧
     (mainRun false "root" "kw" .errOther false 100 scenarioEntries).1 = none) :=
  ⟨by decide, by decide,
   C9_stat_error_passes "root" "kw" false 100 scenarioEntries (by decide) (by decide)⟩

/-- The runtime discipline survives executing the head instruction. -/
theorem goodTask_tail (i : Instr) (is : List Instr) (h : goodTask (i :: is)) :
    goodTask is := by
  obtain ⟨h1, h2⟩ := h
  refine ⟨?_, fun tc htc => h2 tc (List.mem_cons_of_mem _ htc)⟩
  cases i with
  | send r =>
      cases is with
      | nil => rfl
      | cons x xs => simp [sendsLast] at h1
  | inc c => simpa [sendsLast] using h1
  | spawn t => simpa [sendsLast] using h1
  | log e => simpa [sendsLast] using h1

/-- A body with no send instruction trivially sends last. -/
theorem noSend_sendsLast : ∀ t : List Instr, (∀ i ∈ t, isSend i = false) → sendsLast t = true
  | [] => fun _ => rfl
  | i :: is => by
      intro h
      cases i with
      | send r =>
          have := h _ (List.mem_cons_self _ _)
          simp [isSend] at this
      | inc c =>
          simp only [sendsLast]
          exact noSend_sendsLast is (fun j hj => h j (List.mem_cons_of_mem _ hj))
      | spawn t =>
          simp only [sendsLast]
          exact noSend_sendsLast is (fun j hj => h j (List.mem_cons_of_mem _ hj))
      | log e =>
          simp only [sendsLast]
          exact noSend_sendsLast is (fun j hj => h j (List.mem_cons_of_mem _ hj))

/-- The walk callback's per-entry actions contain no send, no matched
send of either kind, and no increment of a matched counter. -/
theorem entryInstrs_counts (cfg : Config) (f : EntryInfo) :
    (entryInstrs cfg f).countP isSend = 0 ∧
    (entryInstrs cfg f).countP isMFSend = 0 ∧
    (entryInstrs cfg f).countP isMDSend = 0 ∧
    (entryInstrs cfg f).countP isNumFoundInc = 0 ∧
    (entryInstrs cfg f).countP isDirFoundInc = 0 := by
  cases hd : f.isDir <;> by_cases hs : f.size < cfg.maxSize * 1024 * 1024 <;>
    simp [entryInstrs, hd, hs, List.countP_cons, List.countP_append,
      isSend, isMFSend, isMDSend, isNumFoundInc, isDirFoundInc]

/-- Everything the walk callback spawns for one entry is good: the
`readFile` goroutine only for a file entry, and a `searchPath`
goroutine for any entry. -/
theorem entryInstrs_spawnsGood (cfg : Config) (f : EntryInfo) :
    spawnsGood (entryInstrs cfg f) := by
  intro tc h
  cases hd : f.isDir
  · by_cases hs : f.size < cfg.maxSize * 1024 * 1024
    · simp [entryInstrs, hd, hs] at h
      rcases h with h | h <;> subst h <;> simp [goodCode, hd]
    · simp [entryInstrs, hd, hs] at h
      subst h
      simp [goodCode]
  · simp [entryInstrs, hd] at h
    subst h
    simp [goodCode]

/-- The walk callback itself performs no send. -/
theorem entryInstrs_no_send (cfg : Config) (f : EntryInfo) :
    ∀ i ∈ entryInstrs cfg f, isSend i = false := by
  intro i h
  cases hd : f.isDir
  · by_cases hs : f.size < cfg.maxSize * 1024 * 1024 <;>
      simp [entryInstrs, hd, hs] at h <;>
        rcases h with h | h | h | h <;> subst h <;> rfl
  · simp [entryInstrs, hd] at h
    rcases h with h | h <;> subst h <;> rfl

/-- Every goroutine body of the program obeys the runtime discipline. -/
theorem taskBody_good (cfg : Config) : ∀ tc, goodCode tc → goodTask (taskBody cfg tc)
  | .readFileT path f => by
      intro hg
      simp only [taskBody]
      cases hc : f.content with
      | none =>
          cases hv : cfg.verbose <;>
            exact ⟨rfl, by intro tc htc; simp at htc⟩
      | some content =>
          refine ⟨rfl, ?_⟩
          intro tc htc
          simp at htc
          subst htc
          exact hg
  | .searchFileT path content f => by
      intro _
      simp only [taskBody]
      cases hm : containsSub (strChars cfg.searchText) content <;>
        exact ⟨rfl, by intro tc htc; simp at htc⟩
  | .searchPathT path f => by
      intro _
      simp only [taskBody]
      cases hm : containsSub (strChars cfg.searchText) (strChars f.name) <;>
        cases hd : f.isDir <;>
          exact ⟨rfl, by intro tc htc; simp at htc⟩
  | .walkerT entries => by
      intro _
      constructor
      · apply noSend_sendsLast
        intro i hi
        simp only [taskBody] at hi
        rw [List.mem_flatten] at hi
        obtain ⟨piece, hp, hmem⟩ := hi
        rw [List.mem_map] at hp
        obtain ⟨e, _, rfl⟩ := hp
        exact entryInstrs_no_send cfg e i hmem
      · intro tc h
        simp only [taskBody] at h
        rw [List.mem_flatten] at h
        obtain ⟨piece, hp, hmem⟩ := h
        rw [List.mem_map] at hp
        obtain ⟨e, _, rfl⟩ := hp
        exact entryInstrs_spawnsGood cfg e tc hmem

/-- Fresh goroutine bodies are balanced: every matched send they will
perform has its counter increment in the same body, so nothing is
pending. -/
theorem taskBody_pend (cfg : Config) :
    ∀ tc, goodCode tc →
      pendF (taskBody cfg tc) = 0 ∧ pendD (taskBody cfg tc) = 0
  | .readFileT path f => by
      intro _
      cases hc : f.content with
      | none =>
          cases hv : cfg.verbose <;>
            simp [taskBody, hc, hv, pendF, pendD, List.countP_cons,
              isMFSend, isMDSend, isNumFoundInc, isDirFoundInc]
      | some content =>
          simp [taskBody, hc, pendF, pendD, List.countP_cons,
            isMFSend, isMDSend, isNumFoundInc, isDirFoundInc]
  | .searchFileT path content f => by
      intro hg
      have hgf : f.isDir = false := hg
      cases hm : containsSub (strChars cfg.searchText) content <;>
        simp [taskBody, hm, pendF, pendD, List.countP_cons, isMFSend, isMDSend,
          isNumFoundInc, isDirFoundInc, isMatchedFile, isMatchedDir, hgf]
  | .searchPathT path f => by
      intro _
      cases hm : containsSub (strChars cfg.searchText) (strChars f.name) <;>
        cases hd : f.isDir <;>
          simp [taskBody, hm, hd, pendF, pendD, List.countP_cons, List.countP_append,
            isMFSend, isMDSend, isNumFoundInc, isDirFoundInc, isMatchedFile, isMatchedDir]
  | .walkerT entries => by
      intro _
      have hz : ∀ p : Instr → Bool,
          (∀ e : EntryInfo, (entryInstrs cfg e).countP p = 0) →
          (taskBody cfg (.walkerT entries)).countP p = 0 := by
        intro p hp
        simp only [taskBody]
        rw [List.countP_flatten, List.map_map]
        apply List.sum_eq_zero
        intro x hx
        rw [List.mem_map] at hx
        obtain ⟨e, _, rfl⟩ := hx
        exact hp e
      constructor
      · simp [pendF, hz isMFSend (fun e => (entryInstrs_counts cfg e).2.1),
          hz isNumFoundInc (fun e => (entryInstrs_counts cfg e).2.2.2.1)]
      · simp [pendD, hz isMDSend (fun e => (entryInstrs_counts cfg e).2.2.1),
          hz isDirFoundInc (fun e => (entryInstrs_counts cfg e).2.2.2.2)]

/-- Sum of a measure over the task list, split at one task. -/
theorem mapSum_middle (g : List Instr → Nat) (l r : List (List Instr))
    (x : List Instr) :
    ((l ++ x :: r).map g).sum = (l.map g).sum + g x + (r.map g).sum := by
  simp only [List.map_append, List.map_cons, List.sum_append, List.sum_cons]
  omega

/-- Effect of an increment on the pending matched-file sends of the
body: consuming `inc numFound` can raise the pending count by at most
one, and never lowers it past the increment it pays for. -/
theorem pendF_inc (c : CtrId) (is : List Instr) :
    pendF is ≤ pendF (.inc c :: is) + (if c = .numFound then 1 else 0) ∧
    pendF (.inc c :: is) ≤ pendF is := by
  cases c <;> simp [pendF, List.countP_cons, isMFSend, isNumFoundInc] <;> omega

/-- Effect of an increment on the pending matched-directory sends. -/
theorem pendD_inc (c : CtrId) (is : List Instr) :
    pendD is ≤ pendD (.inc c :: is) + (if c = .dirFound then 1 else 0) ∧
    pendD (.inc c :: is) ≤ pendD is := by
  cases c <;> simp [pendD, List.countP_cons, isMDSend, isDirFoundInc] <;> omega

/-- `applyInc` touches `numFound` exactly for the `numFound` id. -/
theorem applyInc_numFound (c : CtrId) (ctr : Counters) :
    (applyInc c ctr).numFound = ctr.numFound + (if c = .numFound then 1 else 0) := by
  cases c <;> simp [applyInc, fileCount, folderCount]

/-- `applyInc` touches `dirFound` exactly for the `dirFound` id. -/
theorem applyInc_dirFound (c : CtrId) (ctr : Counters) :
    (applyInc c ctr).dirFound = ctr.dirFound + (if c = .dirFound then 1 else 0) := by
  cases c <;> simp [applyInc, fileCount, folderCount]

/-- The invariant holds right after `walkFiles` launches the walker. -/
theorem invSys_init (cfg : Config) (entries : List EntryInfo) :
    InvSys (initSys cfg entries) := by
  refine ⟨rfl, ?_, ?_, rfl, ?_, ?_, ?_⟩
  · intro h
    simp [initSys] at h
  · intro h
    simp [initSys] at h
  · intro t ht
    simp [initSys] at ht
    subst ht
    exact taskBody_good cfg _ trivial
  · have hp := (taskBody_pend cfg (.walkerT entries) trivial).1
    simp [initSys, mfCount, hp]
  · have hp := (taskBody_pend cfg (.walkerT entries) trivial).2
    simp [initSys, mdCount, hp]

/-- The invariant is preserved by every interleaving step. -/
theorem invSys_step (cfg : Config) {s s' : SysState} (hst : Step cfg s s')
    (h : InvSys s) : InvSys s' := by
  obtain ⟨hwg, hcl, hds, hbs, hgood, hnf, hdf⟩ := h
  cases hst with
  | exec l r i is htasks =>
      have hclosed : s.closed = false := by
        cases hc : s.closed
        · rfl
        · have h0 := hcl hc
          rw [htasks] at h0
          simp at h0
      have hdone : s.doneSig = false := by
        cases hd0 : s.doneSig
        · rfl
        · rw [hds hd0] at hclosed
          simp at hclosed
      have hgood_cur : goodTask (i :: is) :=
        hgood _ (by rw [htasks]; exact List.mem_append_right _ (List.mem_cons_self _ _))
      have hgood_rest : ∀ t ∈ l ++ is :: r, goodTask t := by
        intro t ht
        rcases List.mem_append.mp ht with h1 | h1
        · exact hgood t (by rw [htasks]; exact List.mem_append_left _ h1)
        · rcases List.mem_cons.mp h1 with h2 | h2
          · rw [h2]
            exact goodTask_tail i is hgood_cur
          · exact hgood t
              (by rw [htasks]; exact List.mem_append_right _ (List.mem_cons_of_mem _ h2))
      have hlen : s.wg = l.length + 1 + r.length := by
        rw [hwg, htasks]
        simp only [List.length_append, List.length_cons]
        omega
      rw [htasks, mapSum_middle pendF l r (i :: is)] at hnf
      rw [htasks, mapSum_middle pendD l r (i :: is)] at hdf
      cases i with
      | inc c =>
          refine ⟨?_, ?_, ?_, ?_, ?_, ?_, ?_⟩
          · simp only [execInstr, List.length_append, List.length_cons, List.length_nil]
            omega
          · simp [execInstr, hclosed]
          · simp [execInstr, hdone]
          · simp [execInstr, hbs]
          · exact hgood_rest
          · have hstep := pendF_inc c is
            simp only [execInstr]
            rw [mapSum_middle pendF l r is, applyInc_numFound]
            omega
          · have hstep := pendD_inc c is
            simp only [execInstr]
            rw [mapSum_middle pendD l r is, applyInc_dirFound]
            omega
      | send res =>
          have hisnil : is = [] := by
            have h1 := hgood_cur.1
            cases is with
            | nil => rfl
            | cons x xs => simp [sendsLast] at h1
          subst hisnil
          have hpF : pendF [Instr.send res] = (if isMatchedFile res then 1 else 0) := by
            simp [pendF, List.countP_cons, isMFSend, isNumFoundInc]
          have hpD : pendD [Instr.send res] = (if isMatchedDir res then 1 else 0) := by
            simp [pendD, List.countP_cons, isMDSend, isDirFoundInc]
          rw [hpF] at hnf
          rw [hpD] at hdf
          refine ⟨?_, ?_, ?_, ?_, ?_, ?_, ?_⟩
          · simp only [execInstr, List.length_append, List.length_cons, List.length_nil]
            omega
          · simp [execInstr, hclosed]
          · simp [execInstr, hdone]
          · simp [execInstr, hbs, hclosed]
          · exact hgood_rest
          · simp only [execInstr]
            rw [mapSum_middle pendF l r []]
            have hmf : mfCount (s.received ++ [res]) =
                mfCount s.received + (if isMatchedFile res then 1 else 0) := by
              simp [mfCount, List.countP_append, List.countP_cons]
            rw [hmf]
            have hz : pendF ([] : List Instr) = 0 := rfl
            rw [hz]
            omega
          · simp only [execInstr]
            rw [mapSum_middle pendD l r []]
            have hmd : mdCount (s.received ++ [res]) =
                mdCount s.received + (if isMatchedDir res then 1 else 0) := by
              simp [mdCount, List.countP_append, List.countP_cons]
            rw [hmd]
            have hz : pendD ([] : List Instr) = 0 := rfl
            rw [hz]
            omega
      | spawn tc =>
          have hgc : goodCode tc := hgood_cur.2 tc (List.mem_cons_self _ _)
          have hpsF : pendF (.spawn tc :: is) = pendF is := by
            simp [pendF, List.countP_cons, isMFSend, isNumFoundInc]
          have hpsD : pendD (.spawn tc :: is) = pendD is := by
            simp [pendD, List.countP_cons, isMDSend, isDirFoundInc]
          rw [hpsF] at hnf
          rw [hpsD] at hdf
          refine ⟨?_, ?_, ?_, ?_, ?_, ?_, ?_⟩
          · simp only [execInstr, List.length_append, List.length_cons, List.length_nil]
            omega
          · simp [execInstr, hclosed]
          · simp [execInstr, hdone]
          · simp [execInstr, hbs]
          · intro t ht
            rcases List.mem_append.mp ht with h1 | h1
            · exact hgood_rest t h1
            · have h2 : t = taskBody cfg tc := by simpa using h1
              subst h2
              exact taskBody_good cfg tc hgc
          · simp only [execInstr]
            rw [List.map_append, List.sum_append, mapSum_middle pendF l r is]
            have hpt := (taskBody_pend cfg tc hgc).1
            simp [hpt]
            omega
          · simp only [execInstr]
            rw [List.map_append, List.sum_append, mapSum_middle pendD l r is]
            have hpt := (taskBody_pend cfg tc hgc).2
            simp [hpt]
            omega
      | log e =>
          have hpsF : pendF (.log e :: is) = pendF is := by
            simp [pendF, List.countP_cons, isMFSend, isNumFoundInc]
          have hpsD : pendD (.log e :: is) = pendD is := by
            simp [pendD, List.countP_cons, isMDSend, isDirFoundInc]
          rw [hpsF] at hnf
          rw [hpsD] at hdf
          refine ⟨?_, ?_, ?_, ?_, ?_, ?_, ?_⟩
          · simp only [execInstr, List.length_append, List.length_cons, List.length_nil]
            omega
          · simp [execInstr, hclosed]
          · simp [execInstr, hdone]
          · simp [execInstr, hbs]
          · exact hgood_rest
          · simp only [execInstr]
            rw [mapSum_middle pendF l r is]
            omega
          · simp only [execInstr]
            rw [mapSum_middle pendD l r is]
            omega
  | finish l r htasks =>
      have hclosed : s.closed = false := by
        cases hc : s.closed
        · rfl
        · have h0 := hcl hc
          rw [htasks] at h0
          simp at h0
      have hdone : s.doneSig = false := by
        cases hd0 : s.doneSig
        · rfl
        · rw [hds hd0] at hclosed
          simp at hclosed
      have hlen : s.wg = l.length + 1 + r.length := by
        rw [hwg, htasks]
        simp only [List.length_append, List.length_cons]
        omega
      rw [htasks, mapSum_middle pendF l r []] at hnf
      rw [htasks, mapSum_middle pendD l r []] at hdf
      refine ⟨?_, ?_, ?_, ?_, ?_, ?_, ?_⟩
      · simp only [List.length_append]
        omega
      · simp [hclosed]
      · simp [hdone]
      · exact hbs
      · intro t ht
        rcases List.mem_append.mp ht with h1 | h1
        · exact hgood t (by rw [htasks]; exact List.mem_append_left _ h1)
        · exact hgood t
            (by rw [htasks]; exact List.mem_append_right _ (List.mem_cons_of_mem _ h1))
      · rw [List.map_append, List.sum_append]
        have hz : pendF ([] : List Instr) = 0 := rfl
        rw [hz] at hnf
        simp only [List.map_append, List.sum_append] at hnf ⊢
        omega
      · rw [List.map_append, List.sum_append]
        have hz : pendD ([] : List Instr) = 0 := rfl
        rw [hz] at hdf
        simp only [List.map_append, List.sum_append] at hdf ⊢
        omega
  | cleanup hwg0 hcl0 =>
      have htnil : s.tasks = [] := by
        have h0 := hwg
        rw [hwg0] at h0
        exact List.length_eq_zero.mp h0.symm
      refine ⟨hwg, ?_, ?_, hbs, ?_, hnf, hdf⟩
      · intro _
        exact htnil
      · intro _
        rfl
      · intro t ht
        exact hgood t ht

/-- Every reachable state satisfies the invariant. -/
theorem invSys_reach (cfg : Config) (entries : List EntryInfo) (s : SysState)
    (h : Reach cfg entries s) : InvSys s := by
  have h' : Relation.ReflTransGen (Step cfg) (initSys cfg entries) s := h
  clear h
  induction h' with
  | refl => exact invSys_init cfg entries
  | tail hab hbc ih => exact invSys_step cfg hbc ih

/-- C6 (confirmed): in every reachable state, no send ever happened on
the closed channel, and whenever the channel has been closed or the
one-shot done signal asserted, the outstanding-task counter is zero and
no tracked task — walker, name-match or content-match — remains. -/
theorem C6_close_only_after_quiescence (cfg : Config) (entries : List EntryInfo)
    (s : SysState) (h : Reach cfg entries s) :
    s.badSend = false ∧
    (s.closed = true → s.wg = 0 ∧ s.tasks = []) ∧
    (s.doneSig = true → s.wg = 0 ∧ s.tasks = []) := by
  obtain ⟨hwg, hcl, hds, hbs, _, _, _⟩ := invSys_reach cfg entries s h
  refine ⟨hbs, ?_, ?_⟩
  · intro hc
    have ht := hcl hc
    exact ⟨by simp [hwg, ht], ht⟩
  · intro hd0
    have ht := hcl (hds hd0)
    exact ⟨by simp [hwg, ht], ht⟩

/-- Witness for C6 at the initial state of the scenario run. -/
theorem C6_close_only_after_quiescence_witness :
    Reach scenarioCfg scenarioEntries (initSys scenarioCfg scenarioEntries) ∧
    ((initSys scenarioCfg scenarioEntries).badSend = false ∧
     ((initSys scenarioCfg scenarioEntries).closed = true →
        (initSys scenarioCfg scenarioEntries).wg = 0 ∧
        (initSys scenarioCfg scenarioEntries).tasks = []) ∧
     ((initSys scenarioCfg scenarioEntries).doneSig = true →
        (initSys scenarioCfg scenarioEntries).wg = 0 ∧
        (initSys scenarioCfg scenarioEntries).tasks = [])) :=
  ⟨Relation.ReflTransGen.refl,
   C6_close_only_after_quiescence scenarioCfg scenarioEntries _
     Relation.ReflTransGen.refl⟩

/-- C10 (confirmed): in every reachable state the matched counters
already cover every matched result received: the increment happens,
under the lock, strictly before the send in both searchFile and
searchPath, and an unbuffered send completes only on receipt. -/
theorem C10_counter_precedes_receipt (cfg : Config) (entries : List EntryInfo)
    (s : SysState) (h : Reach cfg entries s) :
    mfCount s.received ≤ s.counters.numFound ∧
    mdCount s.received ≤ s.counters.dirFound := by
  obtain ⟨_, _, _, _, _, hnf, hdf⟩ := invSys_reach cfg entries s h
  exact ⟨by omega, by omega⟩

/-- Witness for C10 at the initial state of a run. -/
theorem C10_counter_precedes_receipt_witness :
    Reach verboseCfg doubleMatchEntries (initSys verboseCfg doubleMatchEntries) ∧
    (mfCount (initSys verboseCfg doubleMatchEntries).received ≤
       (initSys verboseCfg doubleMatchEntries).counters.numFound ∧
     mdCount (initSys verboseCfg doubleMatchEntries).received ≤
       (initSys verboseCfg doubleMatchEntries).counters.dirFound) :=
  ⟨Relation.ReflTransGen.refl,
   C10_counter_precedes_receipt verboseCfg doubleMatchEntries _
     Relation.ReflTransGen.refl⟩

/-- One entry's callback actions exhaust their covered `dirFound`
capacity internally: the entry's own `inc folderVisit` cuts the count
off, whatever follows it. -/
theorem uncoveredD_entry_append (cfg : Config) (e : EntryInfo) (rest : List Instr) :
    uncoveredD (entryInstrs cfg e ++ rest) = 0 := by
  cases hd : e.isDir <;> by_cases hs : e.size < cfg.maxSize * 1024 * 1024 <;>
    simp [entryInstrs, hd, hs, uncoveredD, dUpper]

/-- One entry's callback actions and the covered `numFound` capacity:
a file entry leads with its own `inc fileVisit` and cuts it to zero; a
directory entry spawns only a zero-capacity directory `searchPath` and
passes through. -/
theorem uncoveredN_entry_append (cfg : Config) (e : EntryInfo) (rest : List Instr) :
    uncoveredN (entryInstrs cfg e ++ rest) =
      (if e.isDir then uncoveredN rest else 0) := by
  cases hd : e.isDir <;> by_cases hs : e.size < cfg.maxSize * 1024 * 1024 <;>
    simp [entryInstrs, hd, hs, uncoveredN, nUpper]

/-- The walker body as a whole carries no covered `dirFound`
capacity. -/
theorem uncoveredD_flat (cfg : Config) :
    ∀ entries : List EntryInfo,
      uncoveredD ((entries.map (entryInstrs cfg)).flatten) = 0
  | [] => rfl
  | e :: es => by
      simp only [List.map_cons, List.flatten_cons]
      exact uncoveredD_entry_append cfg e _

/-- The walker body as a whole carries no covered `numFound`
capacity. -/
theorem uncoveredN_flat (cfg : Config) :
    ∀ entries : List EntryInfo,
      uncoveredN ((entries.map (entryInstrs cfg)).flatten) = 0
  | [] => rfl
  | e :: es => by
      simp only [List.map_cons, List.flatten_cons]
      rw [uncoveredN_entry_append]
      simp [uncoveredN_flat cfg es]

/-- The walker body passes the folder-counter discipline check: after
each of its `inc folderVisit` instructions only that entry's single
`searchPath` spawn remains before the next entry begins. -/
theorem okDb_flat (cfg : Config) :
    ∀ entries : List EntryInfo,
      okDb ((entries.map (entryInstrs cfg)).flatten) = true
  | [] => rfl
  | e :: es => by
      simp only [List.map_cons, List.flatten_cons]
      cases hd : e.isDir <;> by_cases hs : e.size < cfg.maxSize * 1024 * 1024 <;>
        simp [entryInstrs, hd, hs, okDb, uncoveredD, dUpper,
          uncoveredD_flat cfg es, okDb_flat cfg es]

/-- The walker body passes the file-counter discipline check: after
each of its `inc fileVisit` instructions at most the `readFile` spawn
and the `searchPath` spawn of that file remain before the next file
entry begins. -/
theorem okNb_flat (cfg : Config) :
    ∀ entries : List EntryInfo,
      okNb ((entries.map (entryInstrs cfg)).flatten) = true
  | [] => rfl
  | e :: es => by
      simp only [List.map_cons, List.flatten_cons]
      cases hd : e.isDir <;> by_cases hs : e.size < cfg.maxSize * 1024 * 1024 <;>
        simp [entryInstrs, hd, hs, okNb, uncoveredN, nUpper,
          uncoveredN_flat cfg es, okNb_flat cfg es]

/-- The folder-counter discipline check survives executing the head
instruction. -/
theorem okDb_tail (i : Instr) (is : List Instr) (h : okDb (i :: is) = true) :
    okDb is = true := by
  cases i with
  | inc c =>
      cases c with
      | folderVisit =>
          simp [okDb] at h
          exact h.2
      | numFound => simpa [okDb] using h
      | fileVisit => simpa [okDb] using h
      | dirFound => simpa [okDb] using h
  | send r => simpa [okDb] using h
  | spawn t => simpa [okDb] using h
  | log e => simpa [okDb] using h

/-- The file-counter discipline check survives executing the head
instruction. -/
theorem okNb_tail (i : Instr) (is : List Instr) (h : okNb (i :: is) = true) :
    okNb is = true := by
  cases i with
  | inc c =>
      cases c with
      | fileVisit =>
          simp [okNb] at h
          exact h.2
      | numFound => simpa [okNb] using h
      | folderVisit => simpa [okNb] using h
      | dirFound => simpa [okNb] using h
  | send r => simpa [okNb] using h
  | spawn t => simpa [okNb] using h
  | log e => simpa [okNb] using h

/-- Every goroutine body of the program passes the folder-counter
discipline check. -/
theorem okDb_taskBody (cfg : Config) : ∀ tc, okDb (taskBody cfg tc) = true
  | .readFileT path f => by
      cases hc : f.content with
      | none => cases hv : cfg.verbose <;> simp [taskBody, hc, hv, okDb]
      | some content => simp [taskBody, hc, okDb]
  | .searchFileT path content f => by
      cases hm : containsSub (strChars cfg.searchText) content <;>
        simp [taskBody, hm, okDb]
  | .searchPathT path f => by
      cases hm : containsSub (strChars cfg.searchText) (strChars f.name) <;>
        cases hd : f.isDir <;> simp [taskBody, hm, hd, okDb]
  | .walkerT entries => by
      simp only [taskBody]
      exact okDb_flat cfg entries

/-- Every goroutine body of the program passes the file-counter
discipline check. -/
theorem okNb_taskBody (cfg : Config) : ∀ tc, okNb (taskBody cfg tc) = true
  | .readFileT path f => by
      cases hc : f.content with
      | none => cases hv : cfg.verbose <;> simp [taskBody, hc, hv, okNb]
      | some content => simp [taskBody, hc, okNb]
  | .searchFileT path content f => by
      cases hm : containsSub (strChars cfg.searchText) content <;>
        simp [taskBody, hm, okNb]
  | .searchPathT path f => by
      cases hm : containsSub (strChars cfg.searchText) (strChars f.name) <;>
        cases hd : f.isDir <;> simp [taskBody, hm, hd, okNb]
  | .walkerT entries => by
      simp only [taskBody]
      exact okNb_flat cfg entries

/-- A fresh body's `dirFound` debt never exceeds the capacity charged
for spawning it. -/
theorem muD_taskBody_le (cfg : Config) : ∀ tc, muD (taskBody cfg tc) ≤ dUpper tc
  | .readFileT path f => by
      cases hc : f.content with
      | none =>
          cases hv : cfg.verbose <;>
            simp [taskBody, hc, hv, muD, uncoveredD, dUpper,
              List.countP_cons, isDirFoundInc]
      | some content =>
          simp [taskBody, hc, muD, uncoveredD, dUpper,
            List.countP_cons, isDirFoundInc]
  | .searchFileT path content f => by
      cases hm : containsSub (strChars cfg.searchText) content <;>
        simp [taskBody, hm, muD, uncoveredD, dUpper,
          List.countP_cons, isDirFoundInc]
  | .searchPathT path f => by
      cases hm : containsSub (strChars cfg.searchText) (strChars f.name) <;>
        cases hd : f.isDir <;>
          simp [taskBody, hm, hd, muD, uncoveredD, dUpper,
            List.countP_cons, isDirFoundInc]
  | .walkerT entries => by
      have hz : (taskBody cfg (.walkerT entries)).countP isDirFoundInc = 0 := by
        simp only [taskBody]
        rw [List.countP_flatten, List.map_map]
        apply List.sum_eq_zero
        intro x hx
        rw [List.mem_map] at hx
        obtain ⟨e, _, rfl⟩ := hx
        exact (entryInstrs_counts cfg e).2.2.2.2
      have hu : uncoveredD (taskBody cfg (.walkerT entries)) = 0 := by
        simp only [taskBody]
        exact uncoveredD_flat cfg entries
      simp [muD, hz, hu, dUpper]

/-- A fresh body's `numFound` debt never exceeds the capacity charged
for spawning it. -/
theorem muN_taskBody_le (cfg : Config) : ∀ tc, muN (taskBody cfg tc) ≤ nUpper tc
  | .readFileT path f => by
      cases hc : f.content with
      | none =>
          cases hv : cfg.verbose <;>
            simp [taskBody, hc, hv, muN, uncoveredN, nUpper,
              List.countP_cons, isNumFoundInc]
      | some content =>
          simp [taskBody, hc, muN, uncoveredN, nUpper,
            List.countP_cons, isNumFoundInc]
  | .searchFileT path content f => by
      cases hm : containsSub (strChars cfg.searchText) content <;>
        simp [taskBody, hm, muN, uncoveredN, nUpper,
          List.countP_cons, isNumFoundInc]
  | .searchPathT path f => by
      cases hm : containsSub (strChars cfg.searchText) (strChars f.name) <;>
        cases hd : f.isDir <;>
          simp [taskBody, hm, hd, muN, uncoveredN, nUpper,
            List.countP_cons, isNumFoundInc]
  | .walkerT entries => by
      have hz : (taskBody cfg (.walkerT entries)).countP isNumFoundInc = 0 := by
        simp only [taskBody]
        rw [List.countP_flatten, List.map_map]
        apply List.sum_eq_zero
        intro x hx
        rw [List.mem_map] at hx
        obtain ⟨e, _, rfl⟩ := hx
        exact (entryInstrs_counts cfg e).2.2.2.1
      have hu : uncoveredN (taskBody cfg (.walkerT entries)) = 0 := by
        simp only [taskBody]
        exact uncoveredN_flat cfg entries
      simp [muN, hz, hu, nUpper]

/-- Executing an increment changes the `dirFound` debt in step with the
counters: consuming `inc dirFound` pays one unit of debt, consuming
`inc folderVisit` can uncover at most one unit (the discipline check),
and the other increments leave it unchanged. -/
theorem muD_inc (c : CtrId) (is : List Instr)
    (hok : okDb (.inc c :: is) = true) :
    muD is + (if c = CtrId.dirFound then 1 else 0) ≤
      muD (.inc c :: is) + (if c = CtrId.folderVisit then 1 else 0) := by
  cases c with
  | folderVisit =>
      simp [okDb] at hok
      simp [muD, uncoveredD, List.countP_cons, isDirFoundInc]
      omega
  | dirFound =>
      simp [muD, uncoveredD, List.countP_cons, isDirFoundInc]
      omega
  | numFound =>
      simp [muD, uncoveredD, List.countP_cons, isDirFoundInc]
  | fileVisit =>
      simp [muD, uncoveredD, List.countP_cons, isDirFoundInc]

/-- Executing an increment changes the `numFound` debt in step with the
counters: consuming `inc numFound` pays one unit, consuming
`inc fileVisit` can uncover at most two units (the discipline check),
and the other increments leave it unchanged. -/
theorem muN_inc (c : CtrId) (is : List Instr)
    (hok : okNb (.inc c :: is) = true) :
    muN is + (if c = CtrId.numFound then 1 else 0) ≤
      muN (.inc c :: is) + 2 * (if c = CtrId.fileVisit then 1 else 0) := by
  cases c with
  | fileVisit =>
      simp [okNb] at hok
      simp [muN, uncoveredN, List.countP_cons, isNumFoundInc]
      omega
  | numFound =>
      simp [muN, uncoveredN, List.countP_cons, isNumFoundInc]
      omega
  | folderVisit =>
      simp [muN, uncoveredN, List.countP_cons, isNumFoundInc]
  | dirFound =>
      simp [muN, uncoveredN, List.countP_cons, isNumFoundInc]

/-- A send leaves both debts unchanged. -/
theorem mu_send_cons (res : walkresult) (is : List Instr) :
    muD (.send res :: is) = muD is ∧ muN (.send res :: is) = muN is := by
  constructor <;>
    simp [muD, muN, uncoveredD, uncoveredN, List.countP_cons,
      isDirFoundInc, isNumFoundInc]

/-- A log write leaves both debts unchanged. -/
theorem mu_log_cons (e : LogEvent) (is : List Instr) :
    muD (.log e :: is) = muD is ∧ muN (.log e :: is) = muN is := by
  constructor <;>
    simp [muD, muN, uncoveredD, uncoveredN, List.countP_cons,
      isDirFoundInc, isNumFoundInc]

/-- Executing a spawn moves exactly the spawned body's capacity out of
the spawning body's debt. -/
theorem mu_spawn_cons (tc : TaskCode) (is : List Instr) :
    muD (.spawn tc :: is) = muD is + dUpper tc ∧
    muN (.spawn tc :: is) = muN is + nUpper tc := by
  constructor <;>
    (simp [muD, muN, uncoveredD, uncoveredN, List.countP_cons,
      isDirFoundInc, isNumFoundInc]
     omega)

/-- `applyInc` touches `fileVisit` exactly for the `fileVisit` id. -/
theorem applyInc_fileVisit (c : CtrId) (ctr : Counters) :
    (applyInc c ctr).fileVisit = ctr.fileVisit + (if c = CtrId.fileVisit then 1 else 0) := by
  cases c <;> simp [applyInc, fileCount, folderCount]

/-- `applyInc` touches `folderVisit` exactly for the `folderVisit` id. -/
theorem applyInc_folderVisit (c : CtrId) (ctr : Counters) :
    (applyInc c ctr).folderVisit = ctr.folderVisit + (if c = CtrId.folderVisit then 1 else 0) := by
  cases c <;> simp [applyInc, fileCount, folderCount]

/-- The counter invariant holds right after `walkFiles` launches the
walker. -/
theorem invCtr_init (cfg : Config) (entries : List EntryInfo) :
    InvCtr (initSys cfg entries) := by
  refine ⟨?_, ?_, ?_⟩
  · intro t ht
    simp [initSys] at ht
    subst ht
    exact ⟨okDb_taskBody cfg _, okNb_taskBody cfg _⟩
  · have h := muD_taskBody_le cfg (.walkerT entries)
    simp [dUpper] at h
    simp [initSys, h]
  · have h := muN_taskBody_le cfg (.walkerT entries)
    simp [nUpper] at h
    simp [initSys, h]

/-- The counter invariant is preserved by every interleaving step. -/
theorem invCtr_step (cfg : Config) {s s' : SysState} (hst : Step cfg s s')
    (h : InvCtr s) : InvCtr s' := by
  obtain ⟨hok, hD, hN⟩ := h
  cases hst with
  | exec l r i is htasks =>
      have hok_cur : okDb (i :: is) = true ∧ okNb (i :: is) = true :=
        hok _ (by rw [htasks]; exact List.mem_append_right _ (List.mem_cons_self _ _))
      have hok_rest : ∀ t ∈ l ++ is :: r, okDb t = true ∧ okNb t = true := by
        intro t ht
        rcases List.mem_append.mp ht with h1 | h1
        · exact hok t (by rw [htasks]; exact List.mem_append_left _ h1)
        · rcases List.mem_cons.mp h1 with h2 | h2
          · rw [h2]
            exact ⟨okDb_tail i is hok_cur.1, okNb_tail i is hok_cur.2⟩
          · exact hok t
              (by rw [htasks]; exact List.mem_append_right _ (List.mem_cons_of_mem _ h2))
      rw [htasks, mapSum_middle muD l r (i :: is)] at hD
      rw [htasks, mapSum_middle muN l r (i :: is)] at hN
      cases i with
      | inc c =>
          have hDi := muD_inc c is hok_cur.1
          have hNi := muN_inc c is hok_cur.2
          refine ⟨hok_rest, ?_, ?_⟩
          · simp only [execInstr]
            rw [mapSum_middle muD l r is, applyInc_dirFound, applyInc_folderVisit]
            omega
          · simp only [execInstr]
            rw [mapSum_middle muN l r is, applyInc_numFound, applyInc_fileVisit]
            omega
      | send res =>
          rw [(mu_send_cons res is).1] at hD
          rw [(mu_send_cons res is).2] at hN
          refine ⟨hok_rest, ?_, ?_⟩
          · simp only [execInstr]
            rw [mapSum_middle muD l r is]
            omega
          · simp only [execInstr]
            rw [mapSum_middle muN l r is]
            omega
      | spawn tc =>
          rw [(mu_spawn_cons tc is).1] at hD
          rw [(mu_spawn_cons tc is).2] at hN
          have hbD := muD_taskBody_le cfg tc
          have hbN := muN_taskBody_le cfg tc
          refine ⟨?_, ?_, ?_⟩
          · intro t ht
            rcases List.mem_append.mp ht with h1 | h1
            · exact hok_rest t h1
            · have h2 : t = taskBody cfg tc := by simpa using h1
              rw [h2]
              exact ⟨okDb_taskBody cfg tc, okNb_taskBody cfg tc⟩
          · simp only [execInstr]
            rw [List.map_append, List.sum_append, mapSum_middle muD l r is]
            simp only [List.map_cons, List.map_nil, List.sum_cons, List.sum_nil]
            omega
          · simp only [execInstr]
            rw [List.map_append, List.sum_append, mapSum_middle muN l r is]
            simp only [List.map_cons, List.map_nil, List.sum_cons, List.sum_nil]
            omega
      | log e =>
          rw [(mu_log_cons e is).1] at hD
          rw [(mu_log_cons e is).2] at hN
          refine ⟨hok_rest, ?_, ?_⟩
          · simp only [execInstr]
            rw [mapSum_middle muD l r is]
            omega
          · simp only [execInstr]
            rw [mapSum_middle muN l r is]
            omega
  | finish l r htasks =>
      rw [htasks, mapSum_middle muD l r []] at hD
      rw [htasks, mapSum_middle muN l r []] at hN
      refine ⟨?_, ?_, ?_⟩
      · intro t ht
        rcases List.mem_append.mp ht with h1 | h1
        · exact hok t (by rw [htasks]; exact List.mem_append_left _ h1)
        · exact hok t
            (by rw [htasks]; exact List.mem_append_right _ (List.mem_cons_of_mem _ h1))
      · have hz : muD ([] : List Instr) = 0 := rfl
        rw [hz] at hD
        simp only [List.map_append, List.sum_append] at hD ⊢
        omega
      · have hz : muN ([] : List Instr) = 0 := rfl
        rw [hz] at hN
        simp only [List.map_append, List.sum_append] at hN ⊢
        omega
  | cleanup hwg0 hcl0 =>
      exact ⟨hok, hD, hN⟩

/-- Every reachable state satisfies the counter invariant. -/
theorem invCtr_reach (cfg : Config) (entries : List EntryInfo) (s : SysState)
    (h : Reach cfg entries s) : InvCtr s := by
  have h' : Relation.ReflTransGen (Step cfg) (initSys cfg entries) s := h
  clear h
  induction h' with
  | refl => exact invCtr_init cfg entries
  | tail hab hbc ih => exact invCtr_step cfg hbc ih

/-- C2 (amended): at every point of every run — in every reachable
state of the interleaving model, the final state included — the
matched-folders counter never exceeds the folders-visited counter, and
the matched-files counter never exceeds twice the files-visited
counter; the matched-files counter can exceed the files-visited counter
itself because a file matching in both content and name increments
`numFound` twice. The same two bounds hold for the final counters of
the run model folded over the enumeration. -/
theorem C2_matched_bounded_at_every_point (cfg : Config)
    (entries : List EntryInfo) (s : SysState) (h : Reach cfg entries s) :
    (s.counters.dirFound ≤ s.counters.folderVisit ∧
     s.counters.numFound ≤ 2 * s.counters.fileVisit) ∧
    ((walkFiles cfg entries).counters.dirFound ≤
       (walkFiles cfg entries).counters.folderVisit ∧
     (walkFiles cfg entries).counters.numFound ≤
       2 * (walkFiles cfg entries).counters.fileVisit) := by
  obtain ⟨_, hD, hN⟩ := invCtr_reach cfg entries s h
  exact ⟨⟨by omega, by omega⟩,
    foldl_walkStep_matched_le cfg entries initOut (by simp [initOut]) (by simp [initOut])⟩

/-- Witness for C2 at the initial state of the double-match run. -/
theorem C2_matched_bounded_at_every_point_witness :
    Reach scenarioCfg doubleMatchEntries (initSys scenarioCfg doubleMatchEntries) ∧
    (((initSys scenarioCfg doubleMatchEntries).counters.dirFound ≤
        (initSys scenarioCfg doubleMatchEntries).counters.folderVisit ∧
      (initSys scenarioCfg doubleMatchEntries).counters.numFound ≤
        2 * (initSys scenarioCfg doubleMatchEntries).counters.fileVisit) ∧
     ((walkFiles scenarioCfg doubleMatchEntries).counters.dirFound ≤
        (walkFiles scenarioCfg doubleMatchEntries).counters.folderVisit ∧
      (walkFiles scenarioCfg doubleMatchEntries).counters.numFound ≤
        2 * (walkFiles scenarioCfg doubleMatchEntries).counters.fileVisit)) :=
  ⟨Relation.ReflTransGen.refl,
   C2_matched_bounded_at_every_point scenarioCfg doubleMatchEntries _
     Relation.ReflTransGen.refl⟩

end GoSearch
